import Mathlib

/-!
Shallow embedding of the trip analytics engine of the obd-report repository
(backend/app/services/analytics.py, backend/app/services/advanced_analytics.py,
and the summary endpoint in backend/app/api/v1/analytics.py).

Machine floats are modelled as rationals, timestamps as rationals counting
seconds, SQL NULL / Python None as `Option`, and Python truthiness of an
optional float as "present and nonzero".  Sample sequences arrive ordered by
time (the services query `ORDER BY time`), so list arguments play the role of
the ordered telemetry sequence of one trip.
-/

/-- A JSONB sensor value as stored in `Telemetry.sensors`: number or string. -/
inductive SensorVal where
  | num (q : ℚ)
  | str (s : String)
deriving DecidableEq, Repr

/-- The two `sensors` keys the cruise logic reads:
`status_of_the_cruise_control_no_or_yes` and `cruise_control_vehicle_speed`. -/
structure SensorBag where
  cruise_status : Option SensorVal := none
  cruise_set_speed : Option SensorVal := none
deriving DecidableEq, Repr

/-- One telemetry sample (row of `telemetry`), restricted to the fields the
analytics services read.  `time` is the timestamp in seconds. -/
structure Sample where
  time : ℚ
  speed_mph : Option ℚ := none
  gps_speed_mph : Option ℚ := none
  engine_rpm : Option ℚ := none
  acceleration_g : Option ℚ := none
  throttle_position_pct : Option ℚ := none
  accelerator_pedal_position_pct : Option ℚ := none
  instant_mpg : Option ℚ := none
  fuel_rate_gal_hr : Option ℚ := none
  latitude : Option ℚ := none
  longitude : Option ℚ := none
  sensors : Option SensorBag := none
deriving DecidableEq, Repr

/-- Python truthiness of an optional float: `None` and `0.0` are falsy. -/
def truthyQ : Option ℚ → Bool
  | none => false
  | some x => x != 0

/-- Python truthiness of an optional JSONB value: `None`, `0.0` and `""` are falsy. -/
def truthySensorVal : Option SensorVal → Bool
  | none => false
  | some (SensorVal.num q) => q != 0
  | some (SensorVal.str s) => s != ""

/-- The speed used for motion-state decisions, analytics.py line 119 and 274:
`point.gps_speed_mph if point.gps_speed_mph else point.speed_mph`.
Python truthiness means a gps speed of exactly 0.0 falls back to `speed_mph`. -/
def effSpeed (p : Sample) : Option ℚ :=
  if truthyQ p.gps_speed_mph then p.gps_speed_mph else p.speed_mph

/-- The engine-running test `point.engine_rpm and point.engine_rpm > 0`. -/
def rpmOn (p : Sample) : Bool :=
  match p.engine_rpm with
  | some r => decide (0 < r)
  | none => false

/-- The low-speed test `speed is not None and speed < IDLE_SPEED_THRESHOLD`
on the effective speed, with the 2.0 mph threshold. -/
def lowSpeed (p : Sample) : Bool :=
  match effSpeed p with
  | some s => decide (s < 2)
  | none => false

/-- The idle predicate of `_detect_idle_events` (analytics.py lines 275-280):
effective speed defined and below 2.0 mph, and engine rpm present and positive. -/
def isIdlePoint (p : Sample) : Bool :=
  lowSpeed p && rpmOn p

/-- Result triple of `TripAnalytics._calculate_idle_and_stops`. -/
structure IdleStopsAcc where
  idle_time : ℚ
  moving_time : ℚ
  stop_count : ℕ
deriving DecidableEq, Repr

/-- Loop body of `_calculate_idle_and_stops` (analytics.py lines 114-141),
entered once `prev_time` is set.  `prev` is the previous sample's time, `cur`
the running stop duration, `inStop` whether the current idle run was already
counted as a stop. -/
def idleStopsGo (prev idle moving : ℚ) (stops : ℕ) (cur : ℚ) (inStop : Bool) :
    List Sample → IdleStopsAcc
  | [] => ⟨idle, moving, stops⟩
  | p :: rest =>
    let d := p.time - prev
    if lowSpeed p = true then
      if rpmOn p = true then
        if inStop = false ∧ 3 ≤ cur + d then
          idleStopsGo p.time (idle + d) moving (stops + 1) (cur + d) true rest
        else
          idleStopsGo p.time (idle + d) moving stops (cur + d) inStop rest
      else
        idleStopsGo p.time idle moving stops 0 false rest
    else
      idleStopsGo p.time idle (moving + d) stops 0 false rest

/-- `TripAnalytics._calculate_idle_and_stops`: the first sample only sets
`prev_time`; every later sample classifies the gap ending at it. -/
def calculate_idle_and_stops : List Sample → IdleStopsAcc
  | [] => ⟨0, 0, 0⟩
  | p :: rest => idleStopsGo p.time 0 0 0 0 false rest

/-- Total duration of the inter-sample gaps that `_calculate_idle_and_stops`
adds to neither total: later sample with effective speed defined and below
2.0 mph but engine rpm missing or not positive (the engine-off branch at
analytics.py lines 131-134 only resets the stop tracker). -/
def engineOffGapTime (prev : ℚ) : List Sample → ℚ
  | [] => 0
  | p :: rest =>
    (if lowSpeed p = true ∧ rpmOn p = false then p.time - prev else 0)
      + engineOffGapTime p.time rest

/-- Time of the last sample of the list, or `prev` when the list is empty. -/
def lastTimeD (prev : ℚ) : List Sample → ℚ
  | [] => prev
  | p :: rest => lastTimeD p.time rest

/-- One stored driving event (row of `driving_events`).  The JSONB `metadata`
keys actually written by the detectors are flattened into optional fields. -/
structure DrivingEvent where
  event_time : ℚ
  event_type : String
  severity : Option String := none
  latitude : Option ℚ := none
  longitude : Option ℚ := none
  speed_mph : Option ℚ := none
  meta_acceleration_g : Option ℚ := none
  meta_throttle_position : Option ℚ := none
  meta_duration_seconds : Option ℚ := none
  meta_set_speed : Option SensorVal := none
deriving DecidableEq, Repr

/-- Severity ladder for `hard_accel` (analytics.py lines 224-229). -/
def accelSeverity (a : ℚ) : String :=
  if 0.5 < a then "high" else if 0.4 < a then "medium" else "low"

/-- Severity ladder for `hard_brake` (analytics.py lines 234-239). -/
def brakeSeverity (a : ℚ) : String :=
  if a < -0.6 then "high" else if a < -0.5 then "medium" else "low"

/-- Per-sample event of `_detect_acceleration_events`: the sample is skipped
when `acceleration_g` is missing or 0.0 (Python truthiness), emits `hard_accel`
above +0.35 g and `hard_brake` below -0.45 g. -/
def accelEvent (p : Sample) : Option DrivingEvent :=
  match p.acceleration_g with
  | none => none
  | some a =>
    if a = 0 then none
    else if 0.35 < a then
      some { event_time := p.time, event_type := "hard_accel",
             severity := some (accelSeverity a), latitude := p.latitude,
             longitude := p.longitude, speed_mph := p.speed_mph,
             meta_acceleration_g := some a,
             meta_throttle_position := p.throttle_position_pct }
    else if a < -0.45 then
      some { event_time := p.time, event_type := "hard_brake",
             severity := some (brakeSeverity a), latitude := p.latitude,
             longitude := p.longitude, speed_mph := p.speed_mph,
             meta_acceleration_g := some a,
             meta_throttle_position := p.throttle_position_pct }
    else none

/-- `DrivingBehaviorAnalytics._detect_acceleration_events`. -/
def detect_acceleration_events (pts : List Sample) : List DrivingEvent :=
  pts.filterMap accelEvent

/-- The `idle_start` event emitted at the first sample of a finished idle run. -/
def idleStartEvent (s : Sample) (dur : ℚ) : DrivingEvent :=
  { event_time := s.time, event_type := "idle_start", latitude := s.latitude,
    longitude := s.longitude, speed_mph := s.speed_mph,
    meta_duration_seconds := some dur }

/-- The `idle_end` event emitted at the first non-idle sample after a run. -/
def idleEndEvent (p : Sample) (dur : ℚ) : DrivingEvent :=
  { event_time := p.time, event_type := "idle_end", latitude := p.latitude,
    longitude := p.longitude, speed_mph := p.speed_mph,
    meta_duration_seconds := some dur }

/-- Loop of `_detect_idle_events` (analytics.py lines 273-322): state is the
idle run's start sample, the accumulated idle duration, and the previous
sample's time.  Events are only emitted when a run ends at a non-idle sample
with accumulated duration of at least `MIN_IDLE_DURATION = 5.0` seconds; the
loop never flushes a run still open when the sequence ends. -/
def idleEvGo (start : Option Sample) (dur : ℚ) (prevT : Option ℚ) :
    List Sample → List DrivingEvent
  | [] => []
  | p :: rest =>
    if isIdlePoint p = true then
      match start with
      | none => idleEvGo (some p) 0 (some p.time) rest
      | some s =>
        match prevT with
        | some t => idleEvGo (some s) (dur + (p.time - t)) (some p.time) rest
        | none => idleEvGo (some s) dur (some p.time) rest
    else
      match start with
      | some s =>
        (if 5 ≤ dur then [idleStartEvent s dur, idleEndEvent p dur] else [])
          ++ idleEvGo none 0 (some p.time) rest
      | none => idleEvGo none dur (some p.time) rest

/-- `DrivingBehaviorAnalytics._detect_idle_events`. -/
def detect_idle_events (pts : List Sample) : List DrivingEvent :=
  idleEvGo none 0 none pts

/-- The cruise-status test of `_detect_cruise_events` (analytics.py 336-344):
status string equals "Yes", or the cruise set-speed sensor value is truthy. -/
def is_cruise_active (p : Sample) : Bool :=
  (match p.sensors with
   | some sb => sb.cruise_status == some (SensorVal.str "Yes")
   | none => false)
  || (match p.sensors with
      | some sb => truthySensorVal sb.cruise_set_speed
      | none => false)

/-- The `cruise_engage` event emitted at the engaging sample. -/
def cruiseEngageEvent (p : Sample) : DrivingEvent :=
  { event_time := p.time, event_type := "cruise_engage", latitude := p.latitude,
    longitude := p.longitude, speed_mph := p.speed_mph,
    meta_set_speed := match p.sensors with
      | some sb => sb.cruise_set_speed
      | none => none }

/-- The `cruise_disengage` event emitted at the disengaging sample. -/
def cruiseDisengageEvent (p : Sample) (dur : ℚ) : DrivingEvent :=
  { event_time := p.time, event_type := "cruise_disengage",
    latitude := p.latitude, longitude := p.longitude, speed_mph := p.speed_mph,
    meta_duration_seconds := some dur }

/-- Loop of `_detect_cruise_events` (analytics.py lines 334-385), edge-triggered
on the cruise-active flag; the start sample is kept across a disengage exactly
as the source never resets `cruise_start_point`. -/
def cruiseEvGo (active : Bool) (startPt : Option Sample) :
    List Sample → List DrivingEvent
  | [] => []
  | p :: rest =>
    if is_cruise_active p = true then
      if active = false then
        cruiseEngageEvent p :: cruiseEvGo true (some p) rest
      else
        cruiseEvGo active startPt rest
    else
      if active = true then
        cruiseDisengageEvent p
            (match startPt with
             | some s => p.time - s.time
             | none => 0)
          :: cruiseEvGo false startPt rest
      else
        cruiseEvGo active startPt rest

/-- `DrivingBehaviorAnalytics._detect_cruise_events`. -/
def detect_cruise_events (pts : List Sample) : List DrivingEvent :=
  cruiseEvGo false none pts

/-- The full event list built by `detect_events` (analytics.py lines 190-199):
the three scans concatenated in source order. -/
def detect_events_pure (pts : List Sample) : List DrivingEvent :=
  detect_acceleration_events pts ++ detect_idle_events pts ++ detect_cruise_events pts

/-- The write step of `detect_events` (analytics.py lines 201-203): the trip's
stored events after the call.  `db.add_all` inserts the fresh events and no
statement deletes the previously stored ones, so the store is appended to. -/
def detect_and_store (pts : List Sample) (store : List DrivingEvent) :
    List DrivingEvent :=
  store ++ detect_events_pure pts

/-- Sample-time order used as hypothesis for sequences coming from the
`ORDER BY time` queries. -/
def sampleTimeLe (a b : Sample) : Prop := a.time ≤ b.time

/-- Strict sample-time order: the spec's invariant that samples of a trip are
strictly ordered by timestamp. -/
def sampleTimeLt (a b : Sample) : Prop := a.time < b.time

/-- Event order by `event_time`. -/
def evTimeLe (a b : DrivingEvent) : Prop := a.event_time ≤ b.event_time

/-- The four mph buckets of `analyze_speed_ranges`. -/
inductive SpeedBucket where
  | stopped
  | city
  | suburban
  | highway
deriving DecidableEq, Repr

/-- First matching bucket in the dict-iteration order of advanced_analytics.py
lines 31-49: stopped [0,2), city [2,35), suburban [35,55), highway [55,150);
a speed outside every range matches none. -/
def bucketOf (s : ℚ) : Option SpeedBucket :=
  if 0 ≤ s ∧ s < 2 then some SpeedBucket.stopped
  else if 2 ≤ s ∧ s < 35 then some SpeedBucket.city
  else if 35 ≤ s ∧ s < 55 then some SpeedBucket.suburban
  else if 55 ≤ s ∧ s < 150 then some SpeedBucket.highway
  else none

/-- Accumulated time and distance of one speed-range bucket. -/
structure RangeAcc where
  time : ℚ
  distance : ℚ
deriving DecidableEq, Repr

/-- The four buckets of `analyze_speed_ranges`. -/
structure SpeedRanges where
  stopped : RangeAcc
  city : RangeAcc
  suburban : RangeAcc
  highway : RangeAcc
deriving DecidableEq, Repr

/-- Bucket lookup. -/
def SpeedRanges.get (r : SpeedRanges) : SpeedBucket → RangeAcc
  | SpeedBucket.stopped => r.stopped
  | SpeedBucket.city => r.city
  | SpeedBucket.suburban => r.suburban
  | SpeedBucket.highway => r.highway

/-- Add a pair's time and distance to one bucket. -/
def addToBucket (r : SpeedRanges) (k : SpeedBucket) (dt dist : ℚ) : SpeedRanges :=
  match k with
  | SpeedBucket.stopped => { r with stopped := ⟨r.stopped.time + dt, r.stopped.distance + dist⟩ }
  | SpeedBucket.city => { r with city := ⟨r.city.time + dt, r.city.distance + dist⟩ }
  | SpeedBucket.suburban => { r with suburban := ⟨r.suburban.time + dt, r.suburban.distance + dist⟩ }
  | SpeedBucket.highway => { r with highway := ⟨r.highway.time + dt, r.highway.distance + dist⟩ }

/-- Loop of `analyze_speed_ranges` (advanced_analytics.py lines 38-51): for
each sample after the first whose own `speed_mph` is defined, the gap ending
at it contributes its duration and `speed/3600*dt` miles to the bucket of that
later sample's speed. -/
def speedRangesGo (prev : ℚ) (acc : SpeedRanges) : List Sample → SpeedRanges
  | [] => acc
  | p :: rest =>
    match p.speed_mph with
    | none => speedRangesGo p.time acc rest
    | some s =>
      match bucketOf s with
      | some k =>
          speedRangesGo p.time
            (addToBucket acc k (p.time - prev) (s / 3600 * (p.time - prev))) rest
      | none => speedRangesGo p.time acc rest

/-- `AdvancedAnalytics.analyze_speed_ranges`, time/distance accumulation part. -/
def analyze_speed_ranges : List Sample → SpeedRanges
  | [] => ⟨⟨0, 0⟩, ⟨0, 0⟩, ⟨0, 0⟩, ⟨0, 0⟩⟩
  | p :: rest => speedRangesGo p.time ⟨⟨0, 0⟩, ⟨0, 0⟩, ⟨0, 0⟩, ⟨0, 0⟩⟩ rest

/-- Percentage step of `analyze_speed_ranges` (advanced_analytics.py 53-59). -/
def speedRangePercentage (r : SpeedRanges) (k : SpeedBucket) : ℚ :=
  let total := r.stopped.time + r.city.time + r.suburban.time + r.highway.time
  if 0 < total then (r.get k).time / total * 100 else 0

/-- Consecutive gaps of a sample list as (previous time, later sample) pairs,
starting from a given previous time. -/
def gapListFrom (prev : ℚ) : List Sample → List (ℚ × Sample)
  | [] => []
  | p :: rest => (prev, p) :: gapListFrom p.time rest

/-- Consecutive gaps of a sample list: one pair per sample after the first. -/
def gapList : List Sample → List (ℚ × Sample)
  | [] => []
  | p :: rest => gapListFrom p.time rest

/-- Time a single gap contributes to bucket `k`: its duration when the later
sample's `speed_mph` is defined and falls in `k`, otherwise nothing. -/
def gapTime (k : SpeedBucket) (g : ℚ × Sample) : ℚ :=
  match g.2.speed_mph with
  | some s => if bucketOf s = some k then g.2.time - g.1 else 0
  | none => 0

/-- Distance a single gap contributes to bucket `k`. -/
def gapDist (k : SpeedBucket) (g : ℚ × Sample) : ℚ :=
  match g.2.speed_mph with
  | some s => if bucketOf s = some k then s / 3600 * (g.2.time - g.1) else 0
  | none => 0

/-- Result of `analyze_throttle_patterns`: the returned dict with the
distribution percentages flattened. -/
structure ThrottlePatterns where
  avg_throttle : ℚ
  max_throttle : ℚ
  avg_pedal_position : ℚ
  gentle_pct : ℚ
  moderate_pct : ℚ
  aggressive_pct : ℚ
  very_aggressive_pct : ℚ
  avg_change_rate : ℚ
  aggressiveness_score : ℚ
deriving DecidableEq, Repr

/-- Counts of the four aggressiveness buckets. -/
structure ThrottleDistribution where
  gentle : ℕ
  moderate : ℕ
  aggressive : ℕ
  very_aggressive : ℕ
deriving DecidableEq, Repr

/-- Per-value bucket update of advanced_analytics.py lines 97-105. -/
def throttleBucketStep (d : ThrottleDistribution) (v : ℚ) : ThrottleDistribution :=
  if v < 30 then { d with gentle := d.gentle + 1 }
  else if v < 60 then { d with moderate := d.moderate + 1 }
  else if v < 80 then { d with aggressive := d.aggressive + 1 }
  else { d with very_aggressive := d.very_aggressive + 1 }

/-- The bucket counts over a list of throttle values. -/
def throttleBucketCounts (vals : List ℚ) : ThrottleDistribution :=
  vals.foldl throttleBucketStep ⟨0, 0, 0, 0⟩

/-- The list comprehension at advanced_analytics.py line 78: values kept only
when truthy, so a throttle of exactly 0.0 is dropped. -/
def throttle_values (pts : List Sample) : List ℚ :=
  pts.filterMap fun p =>
    match p.throttle_position_pct with
    | some x => if x != 0 then some x else none
    | none => none

/-- The pedal list comprehension at advanced_analytics.py lines 79-83. -/
def accel_pedal_values (pts : List Sample) : List ℚ :=
  pts.filterMap fun p =>
    match p.accelerator_pedal_position_pct with
    | some x => if x != 0 then some x else none
    | none => none

/-- Throttle rate-of-change loop (advanced_analytics.py lines 110-123): one
rate per consecutive pair with a defined previous and current throttle and a
positive time gap. -/
def changeRatesGo (prevT : Option ℚ) (prevTh : Option ℚ) : List Sample → List ℚ
  | [] => []
  | p :: rest =>
    (match prevT, prevTh, p.throttle_position_pct with
     | some t0, some th0, some th =>
        if 0 < p.time - t0 then [|th - th0| / (p.time - t0)] else []
     | _, _, _ => [])
      ++ changeRatesGo (some p.time) p.throttle_position_pct rest

/-- `AdvancedAnalytics._calculate_aggressiveness_score`. -/
def calculate_aggressiveness_score (d : ThrottleDistribution) (total : ℕ) : ℚ :=
  if total = 0 then 0
  else ((d.gentle : ℚ) * 0 + (d.moderate : ℚ) * 30 + (d.aggressive : ℚ) * 70
        + (d.very_aggressive : ℚ) * 100) / (total : ℚ)

/-- `AdvancedAnalytics.analyze_throttle_patterns`: the db query keeps samples
with a non-NULL `throttle_position_pct` ordered by time, and an empty query
result returns the empty dict (`none` here). -/
def analyze_throttle_patterns (pts : List Sample) : Option ThrottlePatterns :=
  let tp := pts.filter fun p => p.throttle_position_pct.isSome
  if tp.isEmpty then none
  else
    let tvals := throttle_values tp
    let pvals := accel_pedal_values tp
    let d := throttleBucketCounts tvals
    let total := tvals.length
    let rates := changeRatesGo none none tp
    some
      { avg_throttle := if tvals.isEmpty then 0 else tvals.sum / (tvals.length : ℚ)
        max_throttle := match tvals.max? with
          | some m => m
          | none => 0
        avg_pedal_position := if pvals.isEmpty then 0 else pvals.sum / (pvals.length : ℚ)
        gentle_pct := if total = 0 then 0 else (d.gentle : ℚ) / (total : ℚ) * 100
        moderate_pct := if total = 0 then 0 else (d.moderate : ℚ) / (total : ℚ) * 100
        aggressive_pct := if total = 0 then 0 else (d.aggressive : ℚ) / (total : ℚ) * 100
        very_aggressive_pct := if total = 0 then 0 else (d.very_aggressive : ℚ) / (total : ℚ) * 100
        avg_change_rate := if rates.isEmpty then 0 else rates.sum / (rates.length : ℚ)
        aggressiveness_score := calculate_aggressiveness_score d total }

/-- The throttle values the claim's amended reading singles out: defined and
nonzero, straight from the raw sequence. -/
def nzThrottles (pts : List Sample) : List ℚ :=
  pts.filterMap fun p =>
    p.throttle_position_pct.bind fun x => if x = 0 then none else some x

/-- One `(throttle, speed_change, speed)` scatter point of the correlation
analysis. -/
structure CorrPoint where
  throttle : ℚ
  speed_change : ℚ
  speed : ℚ
deriving DecidableEq, Repr

/-- The non-empty result dict of `get_speed_throttle_correlation`. -/
structure CorrResult where
  correlation_coefficient : ℚ
  sample_points : List CorrPoint
deriving DecidableEq, Repr

/-- The db query of `get_speed_throttle_correlation`: samples with both
throttle and speed non-NULL, as (time, speed, throttle) triples in time order. -/
def corrQualifying (pts : List Sample) : List (ℚ × ℚ × ℚ) :=
  pts.filterMap fun p =>
    match p.throttle_position_pct, p.speed_mph with
    | some th, some s => some (p.time, s, th)
    | _, _ => none

/-- Correlation-point loop (advanced_analytics.py lines 352-367): one point
per consecutive qualifying pair with a positive time gap. -/
def corrPointsGo (prevT prevS : ℚ) : List (ℚ × ℚ × ℚ) → List CorrPoint
  | [] => []
  | (t, s, th) :: rest =>
    (if 0 < t - prevT then [⟨th, s - prevS, s⟩] else [])
      ++ corrPointsGo t s rest

/-- The correlation points of a qualifying-triple list. -/
def corrPoints : List (ℚ × ℚ × ℚ) → List CorrPoint
  | [] => []
  | (t, s, _) :: rest => corrPointsGo t s rest

/-- Arithmetic mean of a list of rationals (0 on the empty list, which the
source never hits on the paths that use it). -/
def listMean (l : List ℚ) : ℚ := l.sum / (l.length : ℚ)

/-- Sum of squared deviations from the mean — zero exactly when the series has
zero variance. -/
def devSq (l : List ℚ) : ℚ := (l.map fun x => (x - listMean l) ^ 2).sum

/-- `AdvancedAnalytics.get_speed_throttle_correlation`.  Python's `x ** 0.5`
on floats is abstracted as the parameter `sq`; the source's guard
`denom_t * denom_s > 0` and zero-sentinel are kept verbatim. -/
def get_speed_throttle_correlation (sq : ℚ → ℚ) (pts : List Sample) :
    Option CorrResult :=
  let q := corrQualifying pts
  if q.length < 10 then none
  else
    let cps := corrPoints q
    if 1 < cps.length then
      let throttles := cps.map CorrPoint.throttle
      let changes := cps.map CorrPoint.speed_change
      let mt := listMean throttles
      let ms := listMean changes
      let num := ((throttles.zip changes).map fun ts => (ts.1 - mt) * (ts.2 - ms)).sum
      let dt := sq ((throttles.map fun t => (t - mt) ^ 2).sum)
      let ds := sq ((changes.map fun s => (s - ms) ^ 2).sum)
      some ⟨if 0 < dt * ds then num / (dt * ds) else 0, cps.take 100⟩
    else none

/-- The `trips` row fields read by the summary endpoint
(backend/app/api/v1/analytics.py, `get_trip_summary`). -/
structure Trip where
  avg_fuel_economy_mpg : Option ℚ := none
  avg_speed_mph : Option ℚ := none
  duration_seconds : ℚ := 0
  idle_time_seconds : Option ℚ := none
deriving DecidableEq, Repr

/-- The efficiency score of `get_trip_summary` (api/v1/analytics.py lines
107-111): computed only when both `avg_fuel_economy_mpg` and `avg_speed_mph`
are truthy, and then equal to `avg_mpg / 30 * 100`. -/
def efficiency_score (t : Trip) : Option ℚ :=
  match t.avg_fuel_economy_mpg, t.avg_speed_mph with
  | some m, some v => if m ≠ 0 ∧ v ≠ 0 then some (m / 30 * 100) else none
  | _, _ => none

/-- Two samples one second apart; the later one rolls at 0 mph with no rpm
reading (engine-off / unlogged-rpm gap). -/
def ex3 : List Sample := [{ time := 0 }, { time := 1, speed_mph := some 0 }]

/-- A 6-second idle run (rpm 800, speed 0) ended at t = 7 by a moving sample
that also triggers a hard-acceleration event. -/
def ex2 : List Sample :=
  [{ time := 0, speed_mph := some 0, engine_rpm := some 800 },
   { time := 6, speed_mph := some 0, engine_rpm := some 800 },
   { time := 7, speed_mph := some 50, engine_rpm := some 2000,
     acceleration_g := some 0.5 }]

/-- One sample with a hard acceleration, producing exactly one driving event. -/
def exC1 : List Sample := [{ time := 0, acceleration_g := some 0.5 }]

/-- A sample whose gps speed is exactly 0.0 while the OBD speed reads 50 mph
and the engine idles at 800 rpm. -/
def exC4 : Sample :=
  { time := 0, gps_speed_mph := some 0, speed_mph := some 50,
    engine_rpm := some 800 }

/-- A consecutive pair whose earlier speed is 10 mph (city) and later speed is
60 mph (highway). -/
def ex5 : List Sample :=
  [{ time := 0, speed_mph := some 10 }, { time := 1, speed_mph := some 60 }]

/-- A trip with a fuel economy of 25 mpg but no average speed on record. -/
def exC6 : Trip := { avg_fuel_economy_mpg := some 25 }

/-- A trip with both fuel economy and average speed present and nonzero. -/
def exC6w : Trip := { avg_fuel_economy_mpg := some 30, avg_speed_mph := some 60 }

/-- Two samples with defined throttle, one of them exactly 0 %. -/
def ex7 : List Sample :=
  [{ time := 0, throttle_position_pct := some 0 },
   { time := 1, throttle_position_pct := some 50 }]

/-- A single sample with a gentle 10 % throttle. -/
def exW7 : List Sample := [{ time := 0, throttle_position_pct := some 10 }]

/-- The throttle-pattern result on `exW7`. -/
def exW7res : ThrottlePatterns :=
  { avg_throttle := 10, max_throttle := 10, avg_pedal_position := 0,
    gentle_pct := 100, moderate_pct := 0, aggressive_pct := 0,
    very_aggressive_pct := 0, avg_change_rate := 0, aggressiveness_score := 0 }

/-- A moving sample followed by a 100-second trailing idle run. -/
def exC9pre : List Sample := [{ time := 0, speed_mph := some 30 }]

/-- The trailing idle run of the `C9` witness: still idle when the sequence
ends, 100 seconds long. -/
def exC9suffix : List Sample :=
  [{ time := 1, speed_mph := some 0, engine_rpm := some 700 },
   { time := 101, speed_mph := some 0, engine_rpm := some 700 }]

/-- Head sample of the `C10` witness sequence. -/
def ex10h : Sample := { time := 0, speed_mph := some 30 }

/-- Tail of the `C10` witness sequence. -/
def ex10t : List Sample := [{ time := 2, speed_mph := some 40 }]

instance (a b : Sample) : Decidable (sampleTimeLe a b) :=
  inferInstanceAs (Decidable (a.time ≤ b.time))

instance (a b : Sample) : Decidable (sampleTimeLt a b) :=
  inferInstanceAs (Decidable (a.time < b.time))

instance (a b : DrivingEvent) : Decidable (evTimeLe a b) :=
  inferInstanceAs (Decidable (a.event_time ≤ b.event_time))

/- ------------------------------------------------------------------ -/
/- Helper lemmas                                                       -/
/- ------------------------------------------------------------------ -/

theorem idleStops_decomp (l : List Sample) :
    ∀ (prev idle moving : ℚ) (stops : ℕ) (cur : ℚ) (inStop : Bool),
    (idleStopsGo prev idle moving stops cur inStop l).idle_time
      + (idleStopsGo prev idle moving stops cur inStop l).moving_time
      + engineOffGapTime prev l
    = idle + moving + (lastTimeD prev l - prev) := by
  induction l with
  | nil =>
    intro prev idle moving stops cur inStop
    simp [idleStopsGo, engineOffGapTime, lastTimeD]
  | cons p rest ih =>
    intro prev idle moving stops cur inStop
    simp only [idleStopsGo, engineOffGapTime, lastTimeD]
    by_cases h1 : lowSpeed p = true
    · by_cases h2 : rpmOn p = true
      · by_cases h3 : inStop = false ∧ 3 ≤ cur + (p.time - prev)
        · rw [if_pos h1, if_pos h2, if_pos h3, if_neg (by simp [h2])]
          have := ih p.time (idle + (p.time - prev)) moving (stops + 1)
            (cur + (p.time - prev)) true
          linarith
        · rw [if_pos h1, if_pos h2, if_neg h3, if_neg (by simp [h2])]
          have := ih p.time (idle + (p.time - prev)) moving stops
            (cur + (p.time - prev)) inStop
          linarith
      · have h2f : rpmOn p = false := by simpa using h2
        rw [if_pos h1, if_neg h2, if_pos ⟨h1, h2f⟩]
        have := ih p.time idle moving stops 0 false
        linarith
    · rw [if_neg h1, if_neg (fun hc => h1 hc.1)]
      have := ih p.time idle (moving + (p.time - prev)) stops 0 false
      linarith

theorem engineOffGapTime_nonneg (l : List Sample) :
    ∀ prev : ℚ, (∀ q ∈ l, prev ≤ q.time) → List.Pairwise sampleTimeLe l →
    0 ≤ engineOffGapTime prev l := by
  induction l with
  | nil => intro prev _ _; simp [engineOffGapTime]
  | cons p rest ih =>
    intro prev hall hp
    rw [List.pairwise_cons] at hp
    have h1 : prev ≤ p.time := hall p (by simp)
    have h2 : 0 ≤ engineOffGapTime p.time rest :=
      ih p.time (fun q hq => hp.1 q hq) hp.2
    simp only [engineOffGapTime]
    have h3 : (0:ℚ) ≤ (if lowSpeed p = true ∧ rpmOn p = false
        then p.time - prev else 0) := by
      split_ifs
      · linarith
      · exact le_refl 0
    linarith

theorem idleEvGo_all_idle (suffix : List Sample) :
    ∀ (start : Option Sample) (dur : ℚ) (prevT : Option ℚ),
    (∀ p ∈ suffix, isIdlePoint p = true) →
    idleEvGo start dur prevT suffix = [] := by
  induction suffix with
  | nil => intro start dur prevT _; rfl
  | cons p rest ih =>
    intro start dur prevT hall
    have hp : isIdlePoint p = true := hall p (by simp)
    simp only [idleEvGo, hp, if_pos]
    have hrest : ∀ q ∈ rest, isIdlePoint q = true := fun q hq => hall q (by simp [hq])
    cases start with
    | none => exact ih (some p) 0 (some p.time) hrest
    | some s =>
      cases prevT with
      | none => exact ih (some s) dur (some p.time) hrest
      | some t => exact ih (some s) (dur + (p.time - t)) (some p.time) hrest

theorem idleEvGo_append_idle (suffix : List Sample)
    (hidle : ∀ p ∈ suffix, isIdlePoint p = true) (pts : List Sample) :
    ∀ (start : Option Sample) (dur : ℚ) (prevT : Option ℚ),
    idleEvGo start dur prevT (pts ++ suffix) = idleEvGo start dur prevT pts := by
  induction pts with
  | nil =>
    intro start dur prevT
    simpa using idleEvGo_all_idle suffix start dur prevT hidle
  | cons p rest ih =>
    intro start dur prevT
    by_cases hp : isIdlePoint p = true
    · simp only [List.cons_append, idleEvGo, hp, if_pos]
      cases start with
      | none => exact ih (some p) 0 (some p.time)
      | some s =>
        cases prevT with
        | none => exact ih (some s) dur (some p.time)
        | some t => exact ih (some s) (dur + (p.time - t)) (some p.time)
    · cases start with
      | none =>
        simp only [List.cons_append, idleEvGo, hp, if_neg, if_false, Bool.false_eq_true]
        exact ih none dur (some p.time)
      | some s =>
        simp only [List.cons_append, idleEvGo, hp, if_neg, if_false, Bool.false_eq_true,
          List.append_eq]
        rw [ih none 0 (some p.time)]

/-- C9: a trailing idle run that is still active when the sample sequence ends
is never emitted: appending any run of idle samples (of any length) to a
sequence leaves the output of the idle-event detector unchanged, so no
`idle_start` or `idle_end` event is produced for the trailing run. -/
theorem C9_no_trailing_idle_flush (pts suffix : List Sample)
    (h : ∀ p ∈ suffix, isIdlePoint p = true) :
    detect_idle_events (pts ++ suffix) = detect_idle_events pts :=
  idleEvGo_append_idle suffix h pts none 0 none

theorem C9_witness :
    (∀ p ∈ exC9suffix, isIdlePoint p = true) ∧
    detect_idle_events (exC9pre ++ exC9suffix) = detect_idle_events exC9pre :=
  ⟨by decide, C9_no_trailing_idle_flush exC9pre exC9suffix (by decide)⟩

/-- C3 counterexample: on `ex3` the single inter-sample gap has its later
sample at effective speed 0 mph (< 2.0) with `engine_rpm` missing, yet the
gap is added to neither `moving_time_seconds` nor `idle_time_seconds`: both
totals are 0 while the timestamp span of the sequence is 1 second, so the
claimed classification as "moving" (and the claimed equality
idle + moving = span) fails. -/
theorem C3_counterexample :
    (calculate_idle_and_stops ex3).moving_time = 0 ∧
    (calculate_idle_and_stops ex3).idle_time = 0 ∧
    lastTimeD 0 ex3 - 0 = 1 ∧
    effSpeed { time := 1, speed_mph := some 0 } = some 0 ∧
    rpmOn { time := 1, speed_mph := some 0 } = false := by
  refine ⟨?_, ?_, ?_, by decide, by decide⟩ <;>
    norm_num [ex3, calculate_idle_and_stops, idleStopsGo, lowSpeed, effSpeed,
      truthyQ, rpmOn, lastTimeD]

/-- C3 (amended): in the motion-state pass a gap whose later sample has
effective speed below 2.0 mph but engine rpm missing or not positive is added
to neither total; idle_time + moving_time equals the full timestamp span of
the sequence minus the total duration of those engine-off low-speed gaps. -/
theorem C3_amended_gap_classification (p : Sample) (rest : List Sample) :
    (calculate_idle_and_stops (p :: rest)).idle_time
      + (calculate_idle_and_stops (p :: rest)).moving_time
      + engineOffGapTime p.time rest
    = lastTimeD p.time rest - p.time := by
  have h := idleStops_decomp rest p.time 0 0 0 0 false
  simp only [calculate_idle_and_stops]
  linarith

/-- C10: for every non-empty sample sequence with strictly increasing
timestamps, idle_time + moving_time never exceeds the timestamp span; the
two totals together with the engine-off low-speed gap time (gaps whose later
sample has effective speed < 2.0 mph and engine rpm missing or not positive,
counted in neither total) exactly partition the span, so each gap is counted
in at most one of the two totals. -/
theorem C10_span_invariant (p : Sample) (rest : List Sample)
    (h : List.Pairwise sampleTimeLt (p :: rest)) :
    (calculate_idle_and_stops (p :: rest)).idle_time
        + (calculate_idle_and_stops (p :: rest)).moving_time
        + engineOffGapTime p.time rest
      = lastTimeD p.time rest - p.time
    ∧ (calculate_idle_and_stops (p :: rest)).idle_time
        + (calculate_idle_and_stops (p :: rest)).moving_time
      ≤ lastTimeD p.time rest - p.time := by
  have hdec := idleStops_decomp rest p.time 0 0 0 0 false
  rw [List.pairwise_cons] at h
  have hoff : 0 ≤ engineOffGapTime p.time rest := by
    refine engineOffGapTime_nonneg rest p.time (fun q hq => le_of_lt (h.1 q hq)) ?_
    exact h.2.imp (fun hab => le_of_lt hab)
  simp only [calculate_idle_and_stops]
  constructor
  · linarith
  · linarith

theorem C10_witness :
    List.Pairwise sampleTimeLt (ex10h :: ex10t) ∧
    ((calculate_idle_and_stops (ex10h :: ex10t)).idle_time
        + (calculate_idle_and_stops (ex10h :: ex10t)).moving_time
        + engineOffGapTime ex10h.time ex10t
      = lastTimeD ex10h.time ex10t - ex10h.time
    ∧ (calculate_idle_and_stops (ex10h :: ex10t)).idle_time
        + (calculate_idle_and_stops (ex10h :: ex10t)).moving_time
      ≤ lastTimeD ex10h.time ex10t - ex10h.time) :=
  ⟨by decide, C10_span_invariant ex10h ex10t (by decide)⟩

/-- C1 counterexample: `detect_events` only inserts (`db.add_all`) and nothing
deletes previously stored DrivingEvents of the trip, so running
detect-and-store twice on the unchanged one-event sequence `exC1` leaves a
different event-store state (two copies) than running it once. -/
theorem C1_counterexample :
    detect_and_store exC1 (detect_and_store exC1 []) ≠ detect_and_store exC1 [] := by
  norm_num [exC1, detect_and_store, detect_events_pure, detect_acceleration_events,
    accelEvent, detect_idle_events, idleEvGo, detect_cruise_events, cruiseEvGo,
    isIdlePoint, lowSpeed, effSpeed, truthyQ, rpmOn, is_cruise_active, accelSeverity]
  intro h
  cases h

/-- C1 (amended): the write step of the Event Detector appends: running
detect-and-store a second time on an unchanged sample sequence yields the
state of the first run with a second copy of the same detected events
appended, and the two states coincide exactly when no event is detected. -/
theorem C1_amended_append_semantics (pts : List Sample) (store : List DrivingEvent) :
    detect_and_store pts (detect_and_store pts store)
      = detect_and_store pts store ++ detect_events_pure pts
    ∧ (detect_and_store pts (detect_and_store pts store) = detect_and_store pts store
        ↔ detect_events_pure pts = []) := by
  constructor
  · rfl
  · constructor
    · intro h
      have hl := congrArg List.length h
      simp only [detect_and_store, List.length_append] at hl
      have : (detect_events_pure pts).length = 0 := by omega
      exact List.eq_nil_of_length_eq_zero this
    · intro h
      simp [detect_and_store, h]

/-- C4 counterexample: on a sample whose `gps_speed_mph` is present and equal
to 0.0 while `speed_mph` is 50, the effective speed used by the motion-state
logic is 50 (Python truthiness makes a 0.0 gps speed fall back to the OBD
speed), not the present gps value 0.0; consequently the sample is not
classified idle even though the engine is running. -/
theorem C4_counterexample :
    exC4.gps_speed_mph = some 0 ∧ exC4.speed_mph = some 50 ∧
    effSpeed exC4 = some 50 ∧ rpmOn exC4 = true ∧ isIdlePoint exC4 = false := by
  decide

/-- C4 (amended): the effective speed is `gps_speed_mph` whenever it is
present and nonzero; when `gps_speed_mph` is absent or exactly 0.0, the
OBD `speed_mph` is used instead. -/
theorem C4_amended_effective_speed (p : Sample) :
    (∀ g : ℚ, p.gps_speed_mph = some g → g ≠ 0 → effSpeed p = some g)
    ∧ (p.gps_speed_mph = none → effSpeed p = p.speed_mph)
    ∧ (p.gps_speed_mph = some 0 → effSpeed p = p.speed_mph) := by
  refine ⟨?_, ?_, ?_⟩
  · intro g hg hne
    simp [effSpeed, truthyQ, hg, hne]
  · intro hg
    simp [effSpeed, truthyQ, hg]
  · intro hg
    simp [effSpeed, truthyQ, hg]

theorem C4_witness :
    exC4.gps_speed_mph = some 0 ∧ effSpeed exC4 = exC4.speed_mph :=
  ⟨by decide, (C4_amended_effective_speed exC4).2.2 (by decide)⟩

/-- C6 counterexample: a trip with `avg_fuel_economy_mpg = 25` but no
`avg_speed_mph` gets a null efficiency score, although the claim demands the
score be non-null (25/30*100) whenever `avg_fuel_economy_mpg` is present. -/
theorem C6_counterexample :
    exC6.avg_fuel_economy_mpg = some 25 ∧ efficiency_score exC6 = none := by
  decide

/-- C6 (amended): the efficiency score is non-null exactly when both
`avg_fuel_economy_mpg` and `avg_speed_mph` are present and nonzero, and any
non-null score equals `avg_fuel_economy_mpg / 30 * 100`. -/
theorem C6_amended_score (t : Trip) :
    ((efficiency_score t).isSome = true
      ↔ truthyQ t.avg_fuel_economy_mpg = true ∧ truthyQ t.avg_speed_mph = true)
    ∧ ∀ x : ℚ, efficiency_score t = some x →
        ∃ m : ℚ, t.avg_fuel_economy_mpg = some m ∧ x = m / 30 * 100 := by
  cases hm : t.avg_fuel_economy_mpg with
  | none => simp [efficiency_score, truthyQ, hm]
  | some m =>
    cases hv : t.avg_speed_mph with
    | none => simp [efficiency_score, truthyQ, hm, hv]
    | some v =>
      by_cases hz : m ≠ 0 ∧ v ≠ 0
      · constructor
        · simp [efficiency_score, truthyQ, hm, hv, hz, hz.1, hz.2]
        · intro x hx
          refine ⟨m, rfl, ?_⟩
          simp only [efficiency_score, hm, hv, if_pos hz] at hx
          exact (Option.some_injective ℚ hx).symm
      · constructor
        · simp only [efficiency_score, hm, hv, if_neg hz]
          constructor
          · intro habs; cases habs
          · rintro ⟨h1, h2⟩
            simp only [truthyQ, bne_iff_ne] at h1 h2
            exact absurd ⟨h1, h2⟩ hz
        · intro x hx
          simp only [efficiency_score, hm, hv, if_neg hz] at hx
          cases hx

theorem C6_witness :
    efficiency_score exC6w = some 100 ∧
    ∃ m : ℚ, exC6w.avg_fuel_economy_mpg = some m ∧ (100 : ℚ) = m / 30 * 100 :=
  ⟨by norm_num [exC6w, efficiency_score],
   (C6_amended_score exC6w).2 100 (by norm_num [exC6w, efficiency_score])⟩

theorem addToBucket_get (r : SpeedRanges) (k j : SpeedBucket) (dt dist : ℚ) :
    ((addToBucket r k dt dist).get j).time
        = (r.get j).time + (if k = j then dt else 0)
    ∧ ((addToBucket r k dt dist).get j).distance
        = (r.get j).distance + (if k = j then dist else 0) := by
  cases k <;> cases j <;> simp [addToBucket, SpeedRanges.get]

theorem speedRangesGo_get (l : List Sample) :
    ∀ (prev : ℚ) (acc : SpeedRanges) (k : SpeedBucket),
    ((speedRangesGo prev acc l).get k).time
        = (acc.get k).time + ((gapListFrom prev l).map (gapTime k)).sum
    ∧ ((speedRangesGo prev acc l).get k).distance
        = (acc.get k).distance + ((gapListFrom prev l).map (gapDist k)).sum := by
  induction l with
  | nil => intro prev acc k; simp [speedRangesGo, gapListFrom]
  | cons p rest ih =>
    intro prev acc k
    simp only [speedRangesGo, gapListFrom, List.map_cons, List.sum_cons]
    cases hs : p.speed_mph with
    | none =>
      have h := ih p.time acc k
      simp only [gapTime, gapDist, hs]
      constructor
      · rw [h.1]; ring
      · rw [h.2]; ring
    | some s =>
      cases hb : bucketOf s with
      | none =>
        have h := ih p.time acc k
        simp only [gapTime, gapDist, hs, hb]
        have hne : ¬ (none : Option SpeedBucket) = some k := by simp
        rw [if_neg hne, if_neg hne]
        constructor
        · rw [h.1]; ring
        · rw [h.2]; ring
      | some k2 =>
        have h := ih p.time
          (addToBucket acc k2 (p.time - prev) (s / 3600 * (p.time - prev))) k
        have hadd := addToBucket_get acc k2 k (p.time - prev) (s / 3600 * (p.time - prev))
        simp only [gapTime, gapDist, hs, hb, Option.some_inj]
        constructor
        · rw [h.1, hadd.1]
          by_cases hk : k2 = k
          · rw [if_pos hk]; ring
          · rw [if_neg hk]; ring
        · rw [h.2, hadd.2]
          by_cases hk : k2 = k
          · rw [if_pos hk]; ring
          · rw [if_neg hk]; ring

/-- C5 counterexample: on the pair `ex5` (earlier speed 10 mph — city, later
speed 60 mph — highway), the whole second of time and its distance are
credited to the highway bucket of the later sample's speed, and the city
bucket of the earlier sample's speed stays empty, contradicting the claim
that the earlier sample's speed decides the bucket. -/
theorem C5_counterexample :
    (analyze_speed_ranges ex5).city = ⟨0, 0⟩ ∧
    (analyze_speed_ranges ex5).highway = ⟨1, 1/60⟩ := by
  norm_num [ex5, analyze_speed_ranges, speedRangesGo, bucketOf, addToBucket]

/-- C5 (amended): for every consecutive sample pair, the bucket receiving the
pair's time and distance is chosen by the LATER sample's `speed_mph`; a pair
whose later sample's speed is undefined or lies outside [0,150) contributes to
no bucket.  Stated as: each bucket's accumulated time/distance is the sum of
the per-gap contributions decided by the later sample. -/
theorem C5_amended_later_sample_bucket (pts : List Sample) (k : SpeedBucket) :
    ((analyze_speed_ranges pts).get k).time = ((gapList pts).map (gapTime k)).sum
    ∧ ((analyze_speed_ranges pts).get k).distance
        = ((gapList pts).map (gapDist k)).sum := by
  cases pts with
  | nil =>
    cases k <;> simp [analyze_speed_ranges, gapList, SpeedRanges.get]
  | cons p rest =>
    have h := speedRangesGo_get rest p.time ⟨⟨0, 0⟩, ⟨0, 0⟩, ⟨0, 0⟩, ⟨0, 0⟩⟩ k
    have hz : ((⟨⟨0, 0⟩, ⟨0, 0⟩, ⟨0, 0⟩, ⟨0, 0⟩⟩ : SpeedRanges).get k) = ⟨0, 0⟩ := by
      cases k <;> simp [SpeedRanges.get]
    simp only [analyze_speed_ranges, gapList]
    rw [h.1, h.2, hz]
    constructor <;> ring

theorem accelEvent_time (p : Sample) (e : DrivingEvent) (h : accelEvent p = some e) :
    e.event_time = p.time := by
  cases hp : p.acceleration_g with
  | none => simp [accelEvent, hp] at h
  | some a =>
    simp only [accelEvent, hp] at h
    by_cases h0 : a = 0
    · rw [if_pos h0] at h; cases h
    · rw [if_neg h0] at h
      by_cases h1 : (0.35 : ℚ) < a
      · rw [if_pos h1] at h; cases h; rfl
      · rw [if_neg h1] at h
        by_cases h2 : a < -0.45
        · rw [if_pos h2] at h; cases h; rfl
        · rw [if_neg h2] at h; cases h

theorem accel_events_sorted (pts : List Sample)
    (h : List.Pairwise sampleTimeLe pts) :
    List.Pairwise evTimeLe (detect_acceleration_events pts) := by
  unfold detect_acceleration_events
  rw [List.pairwise_filterMap]
  refine h.imp ?_
  intro a b hab x hx y hy
  have hxa : x.event_time = a.time := accelEvent_time a x (Option.mem_def.mp hx)
  have hyb : y.event_time = b.time := accelEvent_time b y (Option.mem_def.mp hy)
  show x.event_time ≤ y.event_time
  rw [hxa, hyb]
  exact hab

theorem idleEvGo_cons_none (dur : ℚ) (prevT : Option ℚ) (p : Sample) (rest : List Sample) :
    idleEvGo none dur prevT (p :: rest)
      = if isIdlePoint p = true then idleEvGo (some p) 0 (some p.time) rest
        else idleEvGo none dur (some p.time) rest := rfl

theorem idleEvGo_cons_some (s : Sample) (dur : ℚ) (t : ℚ) (p : Sample) (rest : List Sample) :
    idleEvGo (some s) dur (some t) (p :: rest)
      = if isIdlePoint p = true then
          idleEvGo (some s) (dur + (p.time - t)) (some p.time) rest
        else
          (if 5 ≤ dur then [idleStartEvent s dur, idleEndEvent p dur] else [])
            ++ idleEvGo none 0 (some p.time) rest := rfl

theorem idleEvGo_cons_some_noprev (s : Sample) (dur : ℚ) (p : Sample) (rest : List Sample) :
    idleEvGo (some s) dur none (p :: rest)
      = if isIdlePoint p = true then
          idleEvGo (some s) dur (some p.time) rest
        else
          (if 5 ≤ dur then [idleStartEvent s dur, idleEndEvent p dur] else [])
            ++ idleEvGo none 0 (some p.time) rest := rfl

theorem idleEvGo_lower_bound (l : List Sample) :
    ∀ (start : Option Sample) (dur : ℚ) (prevT : Option ℚ) (L : ℚ),
    (∀ p ∈ l, L ≤ p.time) → (∀ s, start = some s → L ≤ s.time) →
    ∀ e ∈ idleEvGo start dur prevT l, L ≤ e.event_time := by
  induction l with
  | nil =>
    intro start dur prevT L _ _ e he
    simp [idleEvGo] at he
  | cons p rest ih =>
    intro start dur prevT L hall hstart e he
    have hp : L ≤ p.time := hall p (by simp)
    have hrest : ∀ q ∈ rest, L ≤ q.time := fun q hq => hall q (by simp [hq])
    cases start with
    | none =>
      rw [idleEvGo_cons_none] at he
      by_cases hi : isIdlePoint p = true
      · rw [if_pos hi] at he
        refine ih (some p) 0 (some p.time) L hrest ?_ e he
        intro s hs
        cases hs
        exact hp
      · rw [if_neg hi] at he
        exact ih none dur (some p.time) L hrest (fun s hs => by cases hs) e he
    | some s =>
      have hs : L ≤ s.time := hstart s rfl
      have hmem : e ∈ (if 5 ≤ dur then [idleStartEvent s dur, idleEndEvent p dur] else [])
            ++ idleEvGo none 0 (some p.time) rest → L ≤ e.event_time := by
        intro hin
        rcases List.mem_append.mp hin with hleft | hright
        · by_cases hd : 5 ≤ dur
          · rw [if_pos hd] at hleft
            rcases List.mem_cons.mp hleft with rfl | hleft2
            · exact hs
            · rcases List.mem_cons.mp hleft2 with rfl | habs
              · exact hp
              · simp at habs
          · rw [if_neg hd] at hleft
            simp at hleft
        · exact ih none 0 (some p.time) L hrest (fun s2 hs2 => by cases hs2) e hright
      cases prevT with
      | none =>
        rw [idleEvGo_cons_some_noprev] at he
        by_cases hi : isIdlePoint p = true
        · rw [if_pos hi] at he
          exact ih (some s) dur (some p.time) L hrest hstart e he
        · rw [if_neg hi] at he
          exact hmem he
      | some t =>
        rw [idleEvGo_cons_some] at he
        by_cases hi : isIdlePoint p = true
        · rw [if_pos hi] at he
          exact ih (some s) (dur + (p.time - t)) (some p.time) L hrest hstart e he
        · rw [if_neg hi] at he
          exact hmem he

theorem idleEvGo_sorted (l : List Sample) :
    ∀ (start : Option Sample) (dur : ℚ) (prevT : Option ℚ),
    List.Pairwise sampleTimeLe l →
    (∀ s, start = some s → ∀ p ∈ l, s.time ≤ p.time) →
    List.Pairwise evTimeLe (idleEvGo start dur prevT l) := by
  induction l with
  | nil =>
    intro start dur prevT _ _
    simp [idleEvGo]
  | cons p rest ih =>
    intro start dur prevT hsort hstart
    rw [List.pairwise_cons] at hsort
    obtain ⟨hp_rest, hsort_rest⟩ := hsort
    cases start with
    | none =>
      rw [idleEvGo_cons_none]
      by_cases hi : isIdlePoint p = true
      · rw [if_pos hi]
        refine ih (some p) 0 (some p.time) hsort_rest ?_
        intro s hs q hq
        cases hs
        exact hp_rest q hq
      · rw [if_neg hi]
        exact ih none dur (some p.time) hsort_rest (fun s hs => by cases hs)
    | some s =>
      have hsp : s.time ≤ p.time := hstart s rfl p (by simp)
      have hs_rest : ∀ q ∈ rest, s.time ≤ q.time := by
        intro q hq
        exact le_trans hsp (hp_rest q hq)
      have hemit : List.Pairwise evTimeLe
          ((if 5 ≤ dur then [idleStartEvent s dur, idleEndEvent p dur] else [])
            ++ idleEvGo none 0 (some p.time) rest) := by
        have htail_sorted : List.Pairwise evTimeLe (idleEvGo none 0 (some p.time) rest) :=
          ih none 0 (some p.time) hsort_rest (fun s2 hs2 => by cases hs2)
        have htail_lb : ∀ e ∈ idleEvGo none 0 (some p.time) rest, p.time ≤ e.event_time :=
          idleEvGo_lower_bound rest none 0 (some p.time) p.time hp_rest
            (fun s2 hs2 => by cases hs2)
        rw [List.pairwise_append]
        refine ⟨?_, htail_sorted, ?_⟩
        · by_cases hd : 5 ≤ dur
          · rw [if_pos hd]
            rw [List.pairwise_cons]
            refine ⟨?_, ?_⟩
            · intro b hb
              rcases List.mem_cons.mp hb with rfl | habs
              · show (idleStartEvent s dur).event_time ≤ (idleEndEvent p dur).event_time
                exact hsp
              · simp at habs
            · simp
          · rw [if_neg hd]
            exact List.Pairwise.nil
        · intro a ha b hb
          by_cases hd : 5 ≤ dur
          · rw [if_pos hd] at ha
            have hbt : p.time ≤ b.event_time := htail_lb b hb
            rcases List.mem_cons.mp ha with rfl | ha2
            · show (idleStartEvent s dur).event_time ≤ b.event_time
              exact le_trans hsp hbt
            · rcases List.mem_cons.mp ha2 with rfl | habs
              · show (idleEndEvent p dur).event_time ≤ b.event_time
                exact hbt
              · simp at habs
          · rw [if_neg hd] at ha
            simp at ha
      cases prevT with
      | none =>
        rw [idleEvGo_cons_some_noprev]
        by_cases hi : isIdlePoint p = true
        · rw [if_pos hi]
          exact ih (some s) dur (some p.time) hsort_rest
            (fun s2 hs2 => by cases hs2; exact hs_rest)
        · rw [if_neg hi]
          exact hemit
      | some t =>
        rw [idleEvGo_cons_some]
        by_cases hi : isIdlePoint p = true
        · rw [if_pos hi]
          exact ih (some s) (dur + (p.time - t)) (some p.time) hsort_rest
            (fun s2 hs2 => by cases hs2; exact hs_rest)
        · rw [if_neg hi]
          exact hemit

theorem cruiseEvGo_cons (active : Bool) (startPt : Option Sample) (p : Sample)
    (rest : List Sample) :
    cruiseEvGo active startPt (p :: rest)
      = if is_cruise_active p = true then
          if active = false then cruiseEngageEvent p :: cruiseEvGo true (some p) rest
          else cruiseEvGo active startPt rest
        else
          if active = true then
            cruiseDisengageEvent p
                (match startPt with
                 | some s => p.time - s.time
                 | none => 0)
              :: cruiseEvGo false startPt rest
          else cruiseEvGo active startPt rest := rfl

theorem cruiseEvGo_lower_bound (l : List Sample) :
    ∀ (active : Bool) (startPt : Option Sample) (L : ℚ),
    (∀ p ∈ l, L ≤ p.time) →
    ∀ e ∈ cruiseEvGo active startPt l, L ≤ e.event_time := by
  induction l with
  | nil =>
    intro active startPt L _ e he
    simp [cruiseEvGo] at he
  | cons p rest ih =>
    intro active startPt L hall e he
    have hp : L ≤ p.time := hall p (by simp)
    have hrest : ∀ q ∈ rest, L ≤ q.time := fun q hq => hall q (by simp [hq])
    rw [cruiseEvGo_cons] at he
    by_cases hc : is_cruise_active p = true
    · rw [if_pos hc] at he
      by_cases ha : active = false
      · rw [if_pos ha] at he
        rcases List.mem_cons.mp he with rfl | he2
        · exact hp
        · exact ih true (some p) L hrest e he2
      · rw [if_neg ha] at he
        exact ih active startPt L hrest e he
    · rw [if_neg hc] at he
      by_cases ha : active = true
      · rw [if_pos ha] at he
        rcases List.mem_cons.mp he with rfl | he2
        · exact hp
        · exact ih false startPt L hrest e he2
      · rw [if_neg ha] at he
        exact ih active startPt L hrest e he

theorem cruiseEvGo_sorted (l : List Sample) :
    ∀ (active : Bool) (startPt : Option Sample),
    List.Pairwise sampleTimeLe l →
    List.Pairwise evTimeLe (cruiseEvGo active startPt l) := by
  induction l with
  | nil =>
    intro active startPt _
    simp [cruiseEvGo]
  | cons p rest ih =>
    intro active startPt hsort
    rw [List.pairwise_cons] at hsort
    obtain ⟨hp_rest, hsort_rest⟩ := hsort
    rw [cruiseEvGo_cons]
    by_cases hc : is_cruise_active p = true
    · rw [if_pos hc]
      by_cases ha : active = false
      · rw [if_pos ha]
        rw [List.pairwise_cons]
        refine ⟨?_, ih true (some p) hsort_rest⟩
        intro b hb
        show (cruiseEngageEvent p).event_time ≤ b.event_time
        exact cruiseEvGo_lower_bound rest true (some p) p.time hp_rest b hb
      · rw [if_neg ha]
        exact ih active startPt hsort_rest
    · rw [if_neg hc]
      by_cases ha : active = true
      · rw [if_pos ha]
        rw [List.pairwise_cons]
        refine ⟨?_, ih false startPt hsort_rest⟩
        intro b hb
        show (cruiseDisengageEvent p _).event_time ≤ b.event_time
        exact cruiseEvGo_lower_bound rest false startPt p.time hp_rest b hb
      · rw [if_neg ha]
        exact ih active startPt hsort_rest

/-- C2 counterexample: on `ex2` (a finished 6-second idle run followed by a
hard acceleration at the run-ending sample) the flat list returned by
`detect_events` is the acceleration scan followed by the idle scan, with
event times 7, 0, 7 — not sorted non-decreasingly by event_time, although the
input samples are time-ordered. -/
theorem C2_counterexample :
    List.Pairwise sampleTimeLe ex2 ∧
    ¬ List.Pairwise evTimeLe (detect_events_pure ex2) := by
  constructor
  · decide
  · intro hp
    have hp2 : List.Pairwise (fun a b : DrivingEvent => a.event_time ≤ b.event_time)
        (detect_events_pure ex2) := hp
    have hmap : List.Pairwise (fun a b : ℚ => a ≤ b)
        ((detect_events_pure ex2).map DrivingEvent.event_time) :=
      List.pairwise_map.mpr hp2
    have hev : (detect_events_pure ex2).map DrivingEvent.event_time = [7, 0, 7] := by
      norm_num [ex2, detect_events_pure, detect_acceleration_events, accelEvent,
        detect_idle_events, idleEvGo, detect_cruise_events, cruiseEvGo, isIdlePoint,
        lowSpeed, effSpeed, truthyQ, rpmOn, is_cruise_active, accelSeverity,
        idleStartEvent, idleEndEvent, List.filterMap_cons, List.filterMap_nil]
    rw [hev] at hmap
    exact absurd hmap (by decide)

/-- C2 (amended): for every time-ordered sample sequence the Event Detector
returns the concatenation of the acceleration, idle, and cruise scans in that
order, and each of the three scans is individually sorted non-decreasingly by
event_time; the concatenation as a whole need not be globally sorted. -/
theorem C2_amended_sorted_per_scan (pts : List Sample)
    (h : List.Pairwise sampleTimeLe pts) :
    detect_events_pure pts
      = detect_acceleration_events pts ++ detect_idle_events pts
        ++ detect_cruise_events pts
    ∧ List.Pairwise evTimeLe (detect_acceleration_events pts)
    ∧ List.Pairwise evTimeLe (detect_idle_events pts)
    ∧ List.Pairwise evTimeLe (detect_cruise_events pts) := by
  refine ⟨rfl, accel_events_sorted pts h, ?_, ?_⟩
  · exact idleEvGo_sorted pts none 0 none h (fun s hs => by cases hs)
  · exact cruiseEvGo_sorted pts false none h

theorem C2_witness :
    List.Pairwise sampleTimeLe ex2 ∧
    (detect_events_pure ex2
      = detect_acceleration_events ex2 ++ detect_idle_events ex2
        ++ detect_cruise_events ex2
    ∧ List.Pairwise evTimeLe (detect_acceleration_events ex2)
    ∧ List.Pairwise evTimeLe (detect_idle_events ex2)
    ∧ List.Pairwise evTimeLe (detect_cruise_events ex2)) :=
  ⟨by decide, C2_amended_sorted_per_scan ex2 (by decide)⟩

theorem throttle_values_filter (pts : List Sample) :
    throttle_values (pts.filter fun p => p.throttle_position_pct.isSome)
      = nzThrottles pts := by
  induction pts with
  | nil => rfl
  | cons p rest ih =>
    cases hp : p.throttle_position_pct with
    | none =>
      simp only [List.filter_cons, hp, Option.isSome_none, Bool.false_eq_true, if_false,
        nzThrottles, List.filterMap_cons, Option.none_bind]
      exact ih
    | some x =>
      by_cases hx : x = 0
      · subst hx
        simp only [List.filter_cons, hp, Option.isSome_some, if_true,
          throttle_values, nzThrottles, List.filterMap_cons, hp, Option.some_bind,
          bne_self_eq_false, Bool.false_eq_true, if_false, if_pos rfl]
        exact ih
      · have hbne : (x != 0) = true := by simpa using hx
        simp only [List.filter_cons, hp, Option.isSome_some, if_true,
          throttle_values, nzThrottles, List.filterMap_cons, hp, Option.some_bind,
          if_neg hx, hbne]
        exact congrArg (List.cons x) ih

theorem throttleBucketCounts_gentle (vals : List ℚ) :
    (throttleBucketCounts vals).gentle = vals.countP (fun v => decide (v < 30)) := by
  suffices h : ∀ d : ThrottleDistribution,
      (vals.foldl throttleBucketStep d).gentle
        = d.gentle + vals.countP (fun v => decide (v < 30)) by
    simpa [throttleBucketCounts] using h ⟨0, 0, 0, 0⟩
  induction vals with
  | nil => intro d; simp
  | cons v rest ih =>
    intro d
    simp only [List.foldl_cons, List.countP_cons]
    rw [ih]
    by_cases hv : v < 30
    · simp only [throttleBucketStep, if_pos hv, decide_eq_true_eq]
      omega
    · have hstep : (throttleBucketStep d v).gentle = d.gentle := by
        simp only [throttleBucketStep, if_neg hv]
        by_cases h60 : v < 60
        · simp [if_pos h60]
        · simp only [if_neg h60]
          by_cases h80 : v < 80
          · simp [if_pos h80]
          · simp [if_neg h80]
      rw [hstep]
      simp [hv]

theorem throttleBucketCounts_moderate (vals : List ℚ) :
    (throttleBucketCounts vals).moderate
      = vals.countP (fun v => decide (30 ≤ v ∧ v < 60)) := by
  suffices h : ∀ d : ThrottleDistribution,
      (vals.foldl throttleBucketStep d).moderate
        = d.moderate + vals.countP (fun v => decide (30 ≤ v ∧ v < 60)) by
    simpa [throttleBucketCounts] using h ⟨0, 0, 0, 0⟩
  induction vals with
  | nil => intro d; simp
  | cons v rest ih =>
    intro d
    simp only [List.foldl_cons, List.countP_cons]
    rw [ih]
    by_cases h30 : v < 30
    · have hnc : ¬ (30 ≤ v ∧ v < 60) := fun hc => absurd hc.1 (not_le.mpr h30)
      have hstep : (throttleBucketStep d v).moderate = d.moderate := by
        simp [throttleBucketStep, if_pos h30]
      rw [hstep]
      simp [hnc]
    · by_cases h60 : v < 60
      · have hc : 30 ≤ v ∧ v < 60 := ⟨not_lt.mp h30, h60⟩
        have hstep : (throttleBucketStep d v).moderate = d.moderate + 1 := by
          simp [throttleBucketStep, if_neg h30, if_pos h60]
        rw [hstep]
        simp only [decide_eq_true_eq, if_pos hc]
        omega
      · have hnc : ¬ (30 ≤ v ∧ v < 60) := fun hc => absurd hc.2 h60
        have hstep : (throttleBucketStep d v).moderate = d.moderate := by
          simp only [throttleBucketStep, if_neg h30, if_neg h60]
          by_cases h80 : v < 80
          · simp [if_pos h80]
          · simp [if_neg h80]
        rw [hstep]
        simp [hnc]

theorem throttleBucketCounts_aggressive (vals : List ℚ) :
    (throttleBucketCounts vals).aggressive
      = vals.countP (fun v => decide (60 ≤ v ∧ v < 80)) := by
  suffices h : ∀ d : ThrottleDistribution,
      (vals.foldl throttleBucketStep d).aggressive
        = d.aggressive + vals.countP (fun v => decide (60 ≤ v ∧ v < 80)) by
    simpa [throttleBucketCounts] using h ⟨0, 0, 0, 0⟩
  induction vals with
  | nil => intro d; simp
  | cons v rest ih =>
    intro d
    simp only [List.foldl_cons, List.countP_cons]
    rw [ih]
    by_cases h30 : v < 30
    · have hnc : ¬ (60 ≤ v ∧ v < 80) := fun hc => absurd hc.1 (not_le.mpr (by linarith))
      have hstep : (throttleBucketStep d v).aggressive = d.aggressive := by
        simp [throttleBucketStep, if_pos h30]
      rw [hstep]
      simp [hnc]
    · by_cases h60 : v < 60
      · have hnc : ¬ (60 ≤ v ∧ v < 80) := fun hc => absurd hc.1 (not_le.mpr h60)
        have hstep : (throttleBucketStep d v).aggressive = d.aggressive := by
          simp [throttleBucketStep, if_neg h30, if_pos h60]
        rw [hstep]
        simp [hnc]
      · by_cases h80 : v < 80
        · have hc : 60 ≤ v ∧ v < 80 := ⟨not_lt.mp h60, h80⟩
          have hstep : (throttleBucketStep d v).aggressive = d.aggressive + 1 := by
            simp [throttleBucketStep, if_neg h30, if_neg h60, if_pos h80]
          rw [hstep]
          simp only [decide_eq_true_eq, if_pos hc]
          omega
        · have hnc : ¬ (60 ≤ v ∧ v < 80) := fun hc => absurd hc.2 h80
          have hstep : (throttleBucketStep d v).aggressive = d.aggressive := by
            simp [throttleBucketStep, if_neg h30, if_neg h60, if_neg h80]
          rw [hstep]
          simp [hnc]

theorem throttleBucketCounts_very_aggressive (vals : List ℚ) :
    (throttleBucketCounts vals).very_aggressive
      = vals.countP (fun v => decide (80 ≤ v)) := by
  suffices h : ∀ d : ThrottleDistribution,
      (vals.foldl throttleBucketStep d).very_aggressive
        = d.very_aggressive + vals.countP (fun v => decide (80 ≤ v)) by
    simpa [throttleBucketCounts] using h ⟨0, 0, 0, 0⟩
  induction vals with
  | nil => intro d; simp
  | cons v rest ih =>
    intro d
    simp only [List.foldl_cons, List.countP_cons]
    rw [ih]
    by_cases h30 : v < 30
    · have hnc : ¬ (80 ≤ v) := not_le.mpr (by linarith)
      have hstep : (throttleBucketStep d v).very_aggressive = d.very_aggressive := by
        simp [throttleBucketStep, if_pos h30]
      rw [hstep]
      simp [hnc]
    · by_cases h60 : v < 60
      · have hnc : ¬ (80 ≤ v) := not_le.mpr (by linarith)
        have hstep : (throttleBucketStep d v).very_aggressive = d.very_aggressive := by
          simp [throttleBucketStep, if_neg h30, if_pos h60]
        rw [hstep]
        simp [hnc]
      · by_cases h80 : v < 80
        · have hnc : ¬ (80 ≤ v) := not_le.mpr h80
          have hstep : (throttleBucketStep d v).very_aggressive = d.very_aggressive := by
            simp [throttleBucketStep, if_neg h30, if_neg h60, if_pos h80]
          rw [hstep]
          simp [hnc]
        · have hc : 80 ≤ v := not_lt.mp h80
          have hstep : (throttleBucketStep d v).very_aggressive
              = d.very_aggressive + 1 := by
            simp [throttleBucketStep, if_neg h30, if_neg h60, if_neg h80]
          rw [hstep]
          simp only [decide_eq_true_eq, if_pos hc]
          omega

/-- C7 counterexample: on `ex7` both samples have a defined
`throttle_position_pct` (0 % and 50 %), but the sample with throttle exactly 0
is dropped by the truthiness filter: the mean throttle is 50 (not the claimed
25), the gentle bucket percentage is 0 (not the claimed 50) and the moderate
bucket takes 100 % of a 1-sample denominator. -/
theorem C7_counterexample :
    (analyze_throttle_patterns ex7).map
        (fun r => (r.avg_throttle, r.gentle_pct, r.moderate_pct))
      = some (50, 0, 100)
    ∧ ex7.countP (fun p => p.throttle_position_pct.isSome) = 2 := by
  constructor
  · norm_num [ex7, analyze_throttle_patterns, throttle_values, accel_pedal_values,
      throttleBucketCounts, throttleBucketStep, changeRatesGo,
      calculate_aggressiveness_score, List.filter, List.filterMap, List.foldl]
  · decide

/-- C7 (amended): the throttle-pattern analysis computes its mean and its
4-bucket distribution over exactly the samples whose `throttle_position_pct`
is defined AND nonzero; samples with throttle exactly 0 are excluded from the
mean and from the distribution, and the bucket percentages are taken over the
count of nonzero-throttle samples. -/
theorem C7_amended_nonzero_population (pts : List Sample) (r : ThrottlePatterns)
    (h : analyze_throttle_patterns pts = some r) :
    r.avg_throttle = (if nzThrottles pts = [] then 0
        else (nzThrottles pts).sum / ((nzThrottles pts).length : ℚ))
    ∧ r.gentle_pct = (if (nzThrottles pts).length = 0 then 0
        else (((nzThrottles pts).countP fun v => decide (v < 30)) : ℚ)
              / ((nzThrottles pts).length : ℚ) * 100)
    ∧ r.moderate_pct = (if (nzThrottles pts).length = 0 then 0
        else (((nzThrottles pts).countP fun v => decide (30 ≤ v ∧ v < 60)) : ℚ)
              / ((nzThrottles pts).length : ℚ) * 100)
    ∧ r.aggressive_pct = (if (nzThrottles pts).length = 0 then 0
        else (((nzThrottles pts).countP fun v => decide (60 ≤ v ∧ v < 80)) : ℚ)
              / ((nzThrottles pts).length : ℚ) * 100)
    ∧ r.very_aggressive_pct = (if (nzThrottles pts).length = 0 then 0
        else (((nzThrottles pts).countP fun v => decide (80 ≤ v)) : ℚ)
              / ((nzThrottles pts).length : ℚ) * 100) := by
  simp only [analyze_throttle_patterns] at h
  by_cases he : (pts.filter fun p => p.throttle_position_pct.isSome).isEmpty = true
  · rw [if_pos he] at h; cases h
  · rw [if_neg he] at h
    injection h with h
    subst h
    rw [throttle_values_filter pts, throttleBucketCounts_gentle,
      throttleBucketCounts_moderate, throttleBucketCounts_aggressive,
      throttleBucketCounts_very_aggressive]
    refine ⟨?_, ?_, ?_, ?_, ?_⟩
    · simp [List.isEmpty_iff]
    · simp
    · simp
    · simp
    · simp

theorem C7_witness :
    analyze_throttle_patterns exW7 = some exW7res ∧
    (exW7res.avg_throttle = (if nzThrottles exW7 = [] then 0
        else (nzThrottles exW7).sum / ((nzThrottles exW7).length : ℚ))
    ∧ exW7res.gentle_pct = (if (nzThrottles exW7).length = 0 then 0
        else (((nzThrottles exW7).countP fun v => decide (v < 30)) : ℚ)
              / ((nzThrottles exW7).length : ℚ) * 100)
    ∧ exW7res.moderate_pct = (if (nzThrottles exW7).length = 0 then 0
        else (((nzThrottles exW7).countP fun v => decide (30 ≤ v ∧ v < 60)) : ℚ)
              / ((nzThrottles exW7).length : ℚ) * 100)
    ∧ exW7res.aggressive_pct = (if (nzThrottles exW7).length = 0 then 0
        else (((nzThrottles exW7).countP fun v => decide (60 ≤ v ∧ v < 80)) : ℚ)
              / ((nzThrottles exW7).length : ℚ) * 100)
    ∧ exW7res.very_aggressive_pct = (if (nzThrottles exW7).length = 0 then 0
        else (((nzThrottles exW7).countP fun v => decide (80 ≤ v)) : ℚ)
              / ((nzThrottles exW7).length : ℚ) * 100)) :=
  ⟨by norm_num [exW7, exW7res, analyze_throttle_patterns, throttle_values,
      accel_pedal_values, throttleBucketCounts, throttleBucketStep, changeRatesGo,
      calculate_aggressiveness_score, List.filter, List.filterMap, List.foldl],
   C7_amended_nonzero_population exW7 exW7res
     (by norm_num [exW7, exW7res, analyze_throttle_patterns, throttle_values,
        accel_pedal_values, throttleBucketCounts, throttleBucketStep, changeRatesGo,
        calculate_aggressiveness_score, List.filter, List.filterMap, List.foldl])⟩

theorem corrQualifying_fst (p : Sample) (x : ℚ × ℚ × ℚ)
    (h : (match p.throttle_position_pct, p.speed_mph with
          | some th, some s => some (p.time, s, th)
          | _, _ => none) = some x) :
    x.1 = p.time := by
  cases hth : p.throttle_position_pct with
  | none => rw [hth] at h; cases hs : p.speed_mph <;> rw [hs] at h <;> cases h
  | some th =>
    cases hs : p.speed_mph with
    | none => rw [hth, hs] at h; cases h
    | some s => rw [hth, hs] at h; cases h; rfl

theorem corrQualifying_pairwise (pts : List Sample)
    (h : List.Pairwise sampleTimeLt pts) :
    List.Pairwise (fun a b : ℚ × ℚ × ℚ => a.1 < b.1) (corrQualifying pts) := by
  unfold corrQualifying
  rw [List.pairwise_filterMap]
  refine h.imp ?_
  intro a b hab x hx y hy
  have hxa : x.1 = a.time := corrQualifying_fst a x (Option.mem_def.mp hx)
  have hyb : y.1 = b.time := corrQualifying_fst b y (Option.mem_def.mp hy)
  rw [hxa, hyb]
  exact hab

theorem corrPointsGo_length (l : List (ℚ × ℚ × ℚ)) :
    ∀ (t s : ℚ), (∀ x ∈ l, t < x.1) →
    List.Pairwise (fun a b : ℚ × ℚ × ℚ => a.1 < b.1) l →
    (corrPointsGo t s l).length = l.length := by
  induction l with
  | nil => intro t s _ _; rfl
  | cons x rest ih =>
    intro t s hall hp
    rw [List.pairwise_cons] at hp
    obtain ⟨hx_rest, hp_rest⟩ := hp
    obtain ⟨t1, s1, th1⟩ := x
    have ht : t < t1 := hall (t1, s1, th1) (by simp)
    have hpos : (0 : ℚ) < t1 - t := by linarith
    simp only [corrPointsGo, if_pos hpos, List.singleton_append, List.length_cons]
    rw [ih t1 s1 (fun q hq => hx_rest q hq) hp_rest]

theorem corrPoints_length (q : List (ℚ × ℚ × ℚ))
    (h : List.Pairwise (fun a b : ℚ × ℚ × ℚ => a.1 < b.1) q) :
    (corrPoints q).length = q.length - 1 := by
  cases q with
  | nil => rfl
  | cons x rest =>
    rw [List.pairwise_cons] at h
    obtain ⟨t, s, th⟩ := x
    simp only [corrPoints, List.length_cons, Nat.add_sub_cancel]
    exact corrPointsGo_length rest t s (fun q2 hq2 => h.1 q2 hq2) h.2

/-- C8: the speed/throttle correlation returns the empty result whenever
fewer than 10 samples have both throttle and speed defined; with 10 or more
such samples (under the invariant that sample timestamps strictly increase)
it returns a result whose sample-point list has at most 100 entries and whose
correlation coefficient is 0 whenever the throttle series or the speed-change
series has zero variance — the zero-variance guard prevents any division by
zero.  Python's `** 0.5` is abstracted as any `sq` with `sq 0 = 0`. -/
theorem C8_correlation_guards (sq : ℚ → ℚ) (pts : List Sample) (hsq : sq 0 = 0)
    (hsort : List.Pairwise sampleTimeLt pts) :
    ((corrQualifying pts).length < 10 →
        get_speed_throttle_correlation sq pts = none)
    ∧ (10 ≤ (corrQualifying pts).length →
        ∃ r : CorrResult, get_speed_throttle_correlation sq pts = some r
          ∧ r.sample_points.length ≤ 100
          ∧ ((devSq ((corrPoints (corrQualifying pts)).map CorrPoint.throttle) = 0
              ∨ devSq ((corrPoints (corrQualifying pts)).map CorrPoint.speed_change) = 0)
             → r.correlation_coefficient = 0)) := by
  constructor
  · intro hlt
    simp only [get_speed_throttle_correlation]
    rw [if_pos hlt]
  · intro hge
    have hnlt : ¬ (corrQualifying pts).length < 10 := by omega
    have hq := corrQualifying_pairwise pts hsort
    have hlen : (corrPoints (corrQualifying pts)).length
        = (corrQualifying pts).length - 1 := corrPoints_length _ hq
    have hgt1 : 1 < (corrPoints (corrQualifying pts)).length := by omega
    set q := corrQualifying pts with hqdef
    set cps := corrPoints q with hcdef
    set throttles := cps.map CorrPoint.throttle with htdef
    set changes := cps.map CorrPoint.speed_change with hchdef
    set mt := listMean throttles with hmtdef
    set ms := listMean changes with hmsdef
    set num := ((throttles.zip changes).map fun ts => (ts.1 - mt) * (ts.2 - ms)).sum
      with hnumdef
    set dt := sq ((throttles.map fun t => (t - mt) ^ 2).sum) with hdtdef
    set ds := sq ((changes.map fun s => (s - ms) ^ 2).sum) with hdsdef
    have heq : get_speed_throttle_correlation sq pts
        = some ⟨if 0 < dt * ds then num / (dt * ds) else 0, cps.take 100⟩ := by
      simp only [get_speed_throttle_correlation]
      rw [if_neg hnlt, if_pos hgt1]
    refine ⟨_, heq, ?_, ?_⟩
    · simp only [List.length_take]
      omega
    · intro hvar
      have hdt0 : dt = sq (devSq throttles) := hdtdef
      have hds0 : ds = sq (devSq changes) := hdsdef
      rcases hvar with hvt | hvs
      · show (if 0 < dt * ds then num / (dt * ds) else 0) = 0
        rw [hdt0, hvt, hsq, zero_mul, if_neg (lt_irrefl (0 : ℚ))]
      · show (if 0 < dt * ds then num / (dt * ds) else 0) = 0
        rw [hds0, hvs, hsq, mul_zero, if_neg (lt_irrefl (0 : ℚ))]

theorem C8_witness :
    (corrQualifying []).length < 10 ∧
    get_speed_throttle_correlation (fun _ => (0 : ℚ)) [] = none :=
  ⟨by decide,
   (C8_correlation_guards (fun _ => (0 : ℚ)) [] rfl List.Pairwise.nil).1 (by decide)⟩
